import Mathlib

/-!
# Verification of the Anki collection store (`mcp-server/anki_handler.py`)

A shallow embedding of the flashcard collection store.  The SQLite database is
modelled as an explicit state (`Collection`): the `col` table as a list of
`ColRow` (the deck registry JSON document is kept in parsed form, as an
insertion-ordered association list, matching Python dict semantics), the
`notes` and `cards` tables as lists of rows.  Each handler method becomes a
state-passing function returning the on-disk state after the call together
with an `Except` result; an `Except.error` result models a raised Python
exception, and — because every method commits at most once, at the end —
the state returned on the error path is the state at the last completed
commit (SQLite rolls back the open transaction when the connection is
dropped without a commit).

`hashlib.sha1` / `hashlib.sha256` are the standard FIPS 180-4 algorithms and
are implemented here over byte lists (`Nat` bytes, 32-bit words kept reduced
modulo `2^32`), together with UTF-8 encoding and hex digest formatting, so
that the checksum and guid computations in `add_note` are modelled
bit-for-bit.
-/

/-! ## 32-bit helpers, UTF-8, hex -/

/-- Left rotation of a 32-bit word (input assumed `< 2^32`). -/
def rotl32 (n x : Nat) : Nat := ((x <<< n) % 4294967296) ||| (x >>> (32 - n))

/-- Right rotation of a 32-bit word (input assumed `< 2^32`). -/
def rotr32 (n x : Nat) : Nat := (x >>> n) ||| ((x <<< (32 - n)) % 4294967296)

/-- UTF-8 encoding of one Unicode scalar value, as bytes. -/
def utf8EncodeCharBytes (c : Char) : List Nat :=
  let n := c.toNat
  if n < 128 then [n]
  else if n < 2048 then [192 + n / 64, 128 + n % 64]
  else if n < 65536 then [224 + n / 4096, 128 + (n / 64) % 64, 128 + n % 64]
  else [240 + n / 262144, 128 + (n / 4096) % 64, 128 + (n / 64) % 64, 128 + n % 64]

/-- UTF-8 encoding of a string (Python `str.encode()`). -/
def utf8Bytes (s : String) : List Nat := (s.data.map utf8EncodeCharBytes).flatten

/-- Lowercase hex digit for a value `< 16`. -/
def hexDigitChar (n : Nat) : Char :=
  if n < 10 then Char.ofNat (48 + n) else Char.ofNat (87 + n)

/-- Two lowercase hex digits for a byte. -/
def byteToHex (b : Nat) : List Char := [hexDigitChar (b / 16), hexDigitChar (b % 16)]

/-- Lowercase hex string of a byte list (Python `hexdigest()` formatting). -/
def bytesToHex (bs : List Nat) : String := ⟨(bs.map byteToHex).flatten⟩

/-- Numeric value of a hex digit character. -/
def hexVal (c : Char) : Nat :=
  if c.toNat ≥ 97 then c.toNat - 87
  else if c.toNat ≥ 65 then c.toNat - 55
  else c.toNat - 48

/-- Parse a hex string as an unsigned integer (Python `int(s, 16)` on a valid
hex string). -/
def parseHexNat (s : String) : Nat := s.data.foldl (fun acc c => 16 * acc + hexVal c) 0

/-- `k` big-endian bytes of `n`. -/
def beBytes : Nat → Nat → List Nat
  | 0, _ => []
  | k + 1, n => beBytes k (n / 256) ++ [n % 256]

/-! ## SHA padding and message schedule (FIPS 180-4) -/

/-- Merkle–Damgård padding shared by SHA-1 and SHA-256: append `128`, zero
bytes up to 56 mod 64, then the bit length as 8 big-endian bytes. -/
def shaPad (msg : List Nat) : List Nat :=
  let len := msg.length
  let zeros := (64 + 56 - ((len + 1) % 64)) % 64
  msg ++ [128] ++ List.replicate zeros 0 ++ beBytes 8 (8 * len)

/-- Group bytes into big-endian 32-bit words. -/
def toWords32 : List Nat → List Nat
  | a :: b :: c :: d :: rest => (a * 16777216 + b * 65536 + c * 256 + d) :: toWords32 rest
  | _ => []

/-- Split a byte list into 64-byte blocks (structural recursion on a fuel
bound so the kernel can evaluate it; any fuel `≥ l.length` yields all
blocks, and each step consumes 64 > 0 bytes). -/
def chunks64Go : Nat → List Nat → List (List Nat)
  | _, [] => []
  | 0, _ => []
  | fuel + 1, b :: rest => ((b :: rest).take 64) :: chunks64Go fuel ((b :: rest).drop 64)

/-- Split a byte list into 64-byte blocks. -/
def chunks64 (l : List Nat) : List (List Nat) := chunks64Go l.length l

/-! ## SHA-1 -/

/-- SHA-1 round function. -/
def sha1F (i b c d : Nat) : Nat :=
  if i < 20 then (b &&& c) ||| ((b ^^^ 4294967295) &&& d)
  else if i < 40 then b ^^^ c ^^^ d
  else if i < 60 then (b &&& c) ||| (b &&& d) ||| (c &&& d)
  else b ^^^ c ^^^ d

/-- SHA-1 round constants. -/
def sha1K (i : Nat) : Nat :=
  if i < 20 then 1518500249
  else if i < 40 then 1859775393
  else if i < 60 then 2400959708
  else 3395469782

/-- Extend 16 message words to the 80-word SHA-1 schedule. -/
def sha1Extend (w : List Nat) : List Nat :=
  (List.range 64).foldl (fun acc _ =>
    let n := acc.length
    acc ++ [rotl32 1 ((acc.getD (n - 3) 0) ^^^ (acc.getD (n - 8) 0) ^^^
      (acc.getD (n - 14) 0) ^^^ (acc.getD (n - 16) 0))]) w

/-- One SHA-1 compression step on a 16-word block. -/
def sha1Compress (h : Nat × Nat × Nat × Nat × Nat) (block : List Nat) :
    Nat × Nat × Nat × Nat × Nat :=
  let w := sha1Extend block
  let (h0, h1, h2, h3, h4) := h
  let fin := (List.range 80).foldl (fun st i =>
    let (a, b, c, d, e) := st
    let temp := (rotl32 5 a + sha1F i b c d + e + sha1K i + w.getD i 0) % 4294967296
    (temp, a, rotl32 30 b, c, d)) (h0, h1, h2, h3, h4)
  let (a, b, c, d, e) := fin
  ((h0 + a) % 4294967296, (h1 + b) % 4294967296, (h2 + c) % 4294967296,
    (h3 + d) % 4294967296, (h4 + e) % 4294967296)

/-- SHA-1 digest of a byte list, as 20 bytes. -/
def sha1Digest (msg : List Nat) : List Nat :=
  let blocks := (chunks64 (shaPad msg)).map toWords32
  let (h0, h1, h2, h3, h4) :=
    blocks.foldl sha1Compress (1732584193, 4023233417, 2562383102, 271733878, 3285377520)
  beBytes 4 h0 ++ beBytes 4 h1 ++ beBytes 4 h2 ++ beBytes 4 h3 ++ beBytes 4 h4

/-- `hashlib.sha1(s.encode()).hexdigest()`. -/
def sha1Hexdigest (s : String) : String := bytesToHex (sha1Digest (utf8Bytes s))

/-! ## SHA-256 -/

/-- SHA-256 round constants. -/
def sha256K : List Nat :=
  [1116352408, 1899447441, 3049323471, 3921009573, 961987163, 1508970993,
   2453635748, 2870763221, 3624381080, 310598401, 607225278, 1426881987,
   1925078388, 2162078206, 2614888103, 3248222580, 3835390401, 4022224774,
   264347078, 604807628, 770255983, 1249150122, 1555081692, 1996064986,
   2554220882, 2821834349, 2952996808, 3210313671, 3336571891, 3584528711,
   113926993, 338241895, 666307205, 773529912, 1294757372, 1396182291,
   1695183700, 1986661051, 2177026350, 2456956037, 2730485921, 2820302411,
   3259730800, 3345764771, 3516065817, 3600352804, 4094571909, 275423344,
   430227734, 506948616, 659060556, 883997877, 958139571, 1322822218,
   1537002063, 1747873779, 1955562222, 2024104815, 2227730452, 2361852424,
   2428436474, 2756734187, 3204031479, 3329325298]

/-- SHA-256 small sigma 0. -/
def ssig0 (x : Nat) : Nat := rotr32 7 x ^^^ rotr32 18 x ^^^ (x >>> 3)

/-- SHA-256 small sigma 1. -/
def ssig1 (x : Nat) : Nat := rotr32 17 x ^^^ rotr32 19 x ^^^ (x >>> 10)

/-- SHA-256 big sigma 0. -/
def bsig0 (x : Nat) : Nat := rotr32 2 x ^^^ rotr32 13 x ^^^ rotr32 22 x

/-- SHA-256 big sigma 1. -/
def bsig1 (x : Nat) : Nat := rotr32 6 x ^^^ rotr32 11 x ^^^ rotr32 25 x

/-- Extend 16 message words to the 64-word SHA-256 schedule. -/
def sha256Extend (w : List Nat) : List Nat :=
  (List.range 48).foldl (fun acc _ =>
    let n := acc.length
    acc ++ [(acc.getD (n - 16) 0 + ssig0 (acc.getD (n - 15) 0) + acc.getD (n - 7) 0 +
      ssig1 (acc.getD (n - 2) 0)) % 4294967296]) w

/-- One SHA-256 compression step on a 16-word block. -/
def sha256Compress (hs : Nat × Nat × Nat × Nat × Nat × Nat × Nat × Nat)
    (block : List Nat) : Nat × Nat × Nat × Nat × Nat × Nat × Nat × Nat :=
  let w := sha256Extend block
  let (h0, h1, h2, h3, h4, h5, h6, h7) := hs
  let fin := (List.range 64).foldl (fun st i =>
    let (a, b, c, d, e, f, g, hh) := st
    let t1 := (hh + bsig1 e + ((e &&& f) ^^^ ((e ^^^ 4294967295) &&& g)) +
      sha256K.getD i 0 + w.getD i 0) % 4294967296
    let t2 := (bsig0 a + ((a &&& b) ^^^ (a &&& c) ^^^ (b &&& c))) % 4294967296
    ((t1 + t2) % 4294967296, a, b, c, (d + t1) % 4294967296, e, f, g))
    (h0, h1, h2, h3, h4, h5, h6, h7)
  let (a, b, c, d, e, f, g, hh) := fin
  ((h0 + a) % 4294967296, (h1 + b) % 4294967296, (h2 + c) % 4294967296,
    (h3 + d) % 4294967296, (h4 + e) % 4294967296, (h5 + f) % 4294967296,
    (h6 + g) % 4294967296, (h7 + hh) % 4294967296)

/-- SHA-256 digest of a byte list, as 32 bytes. -/
def sha256Digest (msg : List Nat) : List Nat :=
  let blocks := (chunks64 (shaPad msg)).map toWords32
  let (h0, h1, h2, h3, h4, h5, h6, h7) :=
    blocks.foldl sha256Compress
      (1779033703, 3144134277, 1013904242, 2773480762, 1359893119, 2600822924,
        528734635, 1541459225)
  beBytes 4 h0 ++ beBytes 4 h1 ++ beBytes 4 h2 ++ beBytes 4 h3 ++ beBytes 4 h4 ++
    beBytes 4 h5 ++ beBytes 4 h6 ++ beBytes 4 h7

/-- `hashlib.sha256(s.encode()).hexdigest()`. -/
def sha256Hexdigest (s : String) : String := bytesToHex (sha256Digest (utf8Bytes s))

/-! ## Data model (`col`, `notes`, `cards` tables)

The `conf`, `models`, `dconf` and `tags` JSON blobs of the `col` row are
written once at initialization and never read or updated by any operation,
so they are omitted from the row model.  The `decks` JSON document is kept
in parsed form as an insertion-ordered association list from deck id to
deck, matching Python `dict` iteration order (`json.dumps`/`json.loads`
round-trips preserve it, and new entries are appended). -/

/-- One entry of the decks document: `{"id": .., "name": .., "mod": ..}`. -/
structure Deck where
  id : Nat
  name : String
  mod : Nat
deriving DecidableEq, Repr

/-- One row of the `col` table. -/
structure ColRow where
  id : Nat
  crt : Nat
  mod : Nat
  scm : Nat
  ver : Nat
  dty : Nat
  usn : Nat
  ls : Nat
  decks : List (Nat × Deck)
deriving DecidableEq, Repr

/-- One row of the `notes` table. -/
structure NoteRow where
  id : Nat
  guid : String
  mid : Nat
  mod : Nat
  usn : Nat
  tags : String
  flds : String
  sfld : String
  csum : Nat
  flags : Nat
  data : String
deriving DecidableEq, Repr

/-- One row of the `cards` table. -/
structure CardRow where
  id : Nat
  nid : Nat
  did : Nat
  ord : Nat
  mod : Nat
  usn : Nat
  «type» : Nat
  queue : Nat
  due : Nat
  ivl : Nat
  factor : Nat
  reps : Nat
  lapses : Nat
  left : Nat
  odue : Nat
  odid : Nat
  flags : Nat
  data : String
deriving DecidableEq, Repr

/-- Decidable equality for `Except` results, so concrete runs can be
checked by `decide`. -/
def exceptDecEq {e a : Type} [DecidableEq e] [DecidableEq a] :
    (x y : Except e a) → Decidable (x = y)
  | .ok x, .ok y =>
    if h : x = y then .isTrue (by rw [h]) else .isFalse (by simp [h])
  | .ok _, .error _ => .isFalse (by simp)
  | .error _, .ok _ => .isFalse (by simp)
  | .error x, .error y =>
    if h : x = y then .isTrue (by rw [h]) else .isFalse (by simp [h])

instance {e a : Type} [DecidableEq e] [DecidableEq a] : DecidableEq (Except e a) :=
  exceptDecEq

/-- The on-disk database state. -/
structure Collection where
  colRows : List ColRow
  notes : List NoteRow
  cards : List CardRow
deriving DecidableEq, Repr

/-- Python exceptions the handler methods can raise (and re-raise). -/
inductive DbError where
  /-- `fetchone()` found no `col` row, so subscripting its `None` result raised. -/
  | noColRow
  /-- `max()` over the ids of an empty decks document raised `ValueError`. -/
  | emptyDeckDoc
  /-- a `PRIMARY KEY` / `UNIQUE` constraint rejected an `INSERT`, raising
  `sqlite3.IntegrityError` and rolling the open transaction back. -/
  | constraintViolation
deriving DecidableEq, Repr

/-- The bootstrap `Default` deck (`_create_empty_collection`). -/
def defaultDeck (now : Nat) : Deck := { id := 1, name := "Default", mod := now }

/-- The state written by `_create_empty_collection` at clock value `now`:
one `col` row (`id=1, crt=now, mod=now, scm=0, ver=11, dty=0, usn=0, ls=0`)
whose decks document holds only the `Default` deck with id 1; no notes, no
cards. -/
def freshCollection (now : Nat) : Collection :=
  { colRows := [{ id := 1, crt := now, mod := now, scm := 0, ver := 11, dty := 0,
                  usn := 0, ls := 0, decks := [(1, defaultDeck now)] }]
    notes := []
    cards := [] }

/-! ## Observers -/

/-- Exactly one `col` row exists and it has `id = 1` (the state every real
store starts in and, as proved below, keeps). -/
def oneColRow (db : Collection) : Bool :=
  match db.colRows with
  | [r] => r.id == 1
  | _ => false

/-- The decks document of the `col` row with `id = 1` (what
`SELECT decks FROM col WHERE id = 1` reads). -/
def decksOf (db : Collection) : List (Nat × Deck) :=
  match db.colRows.find? (fun r => r.id == 1) with
  | some r => r.decks
  | none => []

/-- The modified time of the `col` row with `id = 1`. -/
def colMod (db : Collection) : Nat :=
  match db.colRows.find? (fun r => r.id == 1) with
  | some r => r.mod
  | none => 0

/-! ## Operations (`AnkiHandler` methods) -/

/-- `AnkiHandler.get_decks`.  The body runs under `try`: any environmental
failure (opening the database, executing the query, `json.loads`) lands in
the `except` branch, which returns `["Default"]`; that whole class of
failures is modelled by the `readOk` flag.  A missing `col` row also
returns `["Default"]` (the `if not result` branch).  Otherwise the deck
names are returned sorted (`sorted(deck_names)`). -/
def get_decks (db : Collection) (readOk : Bool) : List String :=
  if readOk then
    match db.colRows.find? (fun r => r.id == 1) with
    | none => ["Default"]
    | some r => List.insertionSort (· ≤ ·) (r.decks.map (fun p => p.2.name))
  else ["Default"]

/-- `AnkiHandler.create_deck` at clock value `now` (the single
`time.time()` read in its body).  Returns the state after the call and the
deck id, or the re-raised exception; on every error path nothing was
committed, so the state is returned unchanged. -/
def create_deck (db : Collection) (deck_name : String) (now : Nat) :
    Collection × Except DbError Nat :=
  match db.colRows.find? (fun r => r.id == 1) with
  | none => (db, .error .noColRow)
  | some row =>
    match row.decks.find? (fun p => p.2.name == deck_name) with
    | some p => (db, .ok p.1)
    | none =>
      match row.decks.map Prod.fst with
      | [] => (db, .error .emptyDeckDoc)
      | k :: ks =>
        let new_deck_id := ks.foldl Nat.max k + 1
        let decks2 := row.decks ++
          [(new_deck_id, { id := new_deck_id, name := deck_name, mod := now })]
        ({ db with colRows := db.colRows.map (fun r =>
            if r.id == 1 then { r with decks := decks2, mod := now } else r) },
          .ok new_deck_id)

/-- The nondeterministic inputs one `add_note` call draws from the
environment: three `time.time()` reads and one `random.randint(0, 999)`. -/
structure Env where
  /-- clock value read inside the nested `create_deck` call. -/
  tDeck : Nat
  /-- clock value entering the note id (`int(time.time() * 1000)`). -/
  tId : Nat
  /-- the `random.randint(0, 999)` outcome added to the note id. -/
  rand : Nat
  /-- clock value stored as `mod` on the new rows and the collection. -/
  tNow : Nat
deriving DecidableEq, Repr

/-- `sfld = front[:64] if len(front) > 64 else front`. -/
def sfldOf (front : String) : String :=
  if front.length > 64 then front.take 64 else front

/-- `csum = int(hashlib.sha1(sfld.encode()).hexdigest()[:8], 16)`. -/
def csumOf (front : String) : Nat :=
  parseHexNat ((sha1Hexdigest (sfldOf front)).take 8)

/-- `guid = hashlib.sha256(f"{note_id}{front}{back}".encode()).hexdigest()[:8]`. -/
def guidOf (note_id : Nat) (front back : String) : String :=
  (sha256Hexdigest (toString note_id ++ front ++ back)).take 8

/-- The note row written by `add_note`'s `INSERT INTO notes`: `mid = 1`,
`usn = 0`, `flags = 0`, `data = ''`, fields joined by the unit separator,
each tag surrounded by a space. -/
def noteRowOf (front back : String) (tags : Option (List String)) (note_id now : Nat) :
    NoteRow :=
  { id := note_id, guid := guidOf note_id front back, mid := 1, mod := now, usn := 0,
    tags := " " ++ String.intercalate " " (match tags with | none => [] | some l => l) ++ " ",
    flds := front ++ "\x1f" ++ back, sfld := sfldOf front, csum := csumOf front,
    flags := 0, data := "" }

/-- The card row written by `add_note`'s `INSERT INTO cards`: every
scheduling field zero, `ord = 0`, `usn = 0`, `flags = 0`, `data = ''`. -/
def cardRowOf (card_id note_id deck_id now : Nat) : CardRow :=
  { id := card_id, nid := note_id, did := deck_id, ord := 0, mod := now, usn := 0,
    «type» := 0, queue := 0, due := 0, ivl := 0, factor := 0, reps := 0, lapses := 0,
    left := 0, odue := 0, odid := 0, flags := 0, data := "" }

/-- `AnkiHandler.add_note`.  Resolves the deck first (`create_deck` commits
on its own connection), then inserts the note row and the card row and
updates the collection modified time on a second connection, committing the
three changes together.  A `PRIMARY KEY` or `UNIQUE guid` violation aborts
that transaction, leaving the state as `create_deck` left it. -/
def add_note (db : Collection) (front back : String) (deck_name : String)
    (tags : Option (List String)) (e : Env) : Collection × Except DbError Nat :=
  match create_deck db deck_name e.tDeck with
  | (db1, .error err) => (db1, .error err)
  | (db1, .ok deck_id) =>
    let note_id := e.tId + e.rand
    let card_id := note_id + 1
    if db1.notes.any (fun n => n.id == note_id || n.guid == guidOf note_id front back) then
      (db1, .error .constraintViolation)
    else if db1.cards.any (fun c => c.id == card_id) then
      (db1, .error .constraintViolation)
    else
      ({ colRows := db1.colRows.map (fun r => if r.id == 1 then { r with mod := e.tNow } else r)
         notes := db1.notes ++ [noteRowOf front back tags note_id e.tNow]
         cards := db1.cards ++ [cardRowOf card_id note_id deck_id e.tNow] },
        .ok note_id)

/-- One record handed to `add_notes_batch`: `front` and `back` are required
keys, `deck_name` and `tags` are read with `.get` and may be absent. -/
structure NoteInput where
  front : String
  back : String
  deck_name : Option String
  tags : Option (List String)
deriving DecidableEq, Repr

/-- `AnkiHandler.add_notes_batch`: calls `add_note` once per record in
input order, collecting the ids; the first raised exception propagates,
leaving the earlier notes committed and the remaining records unattempted.
Each record carries its own environment draw. -/
def add_notes_batch (db : Collection) :
    List (NoteInput × Env) → Collection × Except DbError (List Nat)
  | [] => (db, .ok [])
  | (r, e) :: rest =>
    match add_note db r.front r.back (r.deck_name.getD "Default") r.tags e with
    | (db1, .error err) => (db1, .error err)
    | (db1, .ok nid) =>
      match add_notes_batch db1 rest with
      | (db2, .error err) => (db2, .error err)
      | (db2, .ok nids) => (db2, .ok (nid :: nids))

/-! ## Sanity checks of the hash layer against published test vectors -/

set_option maxRecDepth 100000
set_option maxHeartbeats 4000000

/-- FIPS 180-1 test: SHA-1 of the empty message. -/
theorem sha1Hexdigest_nil :
    sha1Hexdigest "" = "da39a3ee5e6b4b0d3255bfef95601890afd80709" := by decide

/-- FIPS 180-1 test: SHA-1 of `"abc"`. -/
theorem sha1Hexdigest_abc :
    sha1Hexdigest "abc" = "a9993e364706816aba3e25717850c26c9cd0d89d" := by decide

/-- FIPS 180-2 test: SHA-256 of `"abc"`. -/
theorem sha256Hexdigest_abc :
    sha256Hexdigest "abc" =
      "ba7816bf8f01cfea414140de5dae2223b00361a396177a9cb410ff61f20015ad" := by decide

/-! ## Helper lemmas -/

/-- The conditional truncation in `add_note` is plain truncation to 64
characters. -/
theorem sfldOf_eq_take (f : String) : sfldOf f = f.take 64 := by
  rcases f with ⟨d⟩
  unfold sfldOf
  rw [String.take_eq]
  split
  · rfl
  next h =>
    have hle : d.length ≤ 64 := by
      simpa [String.length] using Nat.le_of_not_lt h
    rw [List.take_of_length_le hle]

/-- `oneColRow` unpacked. -/
theorem oneColRow_iff (db : Collection) :
    oneColRow db = true ↔ ∃ r, db.colRows = [r] ∧ r.id = 1 := by
  unfold oneColRow
  match h : db.colRows with
  | [] => simp
  | [r] => simp [beq_iff_eq]
  | r :: s :: l => simp

/-- A left fold by `Nat.max` lands in the folded list. -/
theorem foldl_max_mem (ks : List Nat) (k : Nat) : ks.foldl Nat.max k ∈ k :: ks := by
  induction ks generalizing k with
  | nil => simp [List.foldl]
  | cons a ks ih =>
    rw [List.foldl_cons]
    rcases List.mem_cons.mp (ih (Nat.max k a)) with h | h
    · rw [h]
      unfold Nat.max
      rcases max_choice k a with hm | hm <;> rw [hm] <;> simp
    · exact List.mem_cons_of_mem _ (List.mem_cons_of_mem _ h)

/-- The seed is bounded by a left fold by `Nat.max`. -/
theorem le_foldl_max_self (ks : List Nat) (k : Nat) : k ≤ ks.foldl Nat.max k := by
  induction ks generalizing k with
  | nil => simp [List.foldl]
  | cons a ks ih => exact Nat.le_trans (Nat.le_max_left k a) (ih (Nat.max k a))

/-- Every folded element is bounded by a left fold by `Nat.max`. -/
theorem le_foldl_max (ks : List Nat) (k x : Nat) (hx : x ∈ k :: ks) :
    x ≤ ks.foldl Nat.max k := by
  induction ks generalizing k with
  | nil =>
    rcases List.mem_cons.mp hx with rfl | h
    · simp [List.foldl]
    · simp at h
  | cons a ks ih =>
    rw [List.foldl_cons]
    rcases List.mem_cons.mp hx with rfl | h
    · exact Nat.le_trans (Nat.le_max_left x a) (le_foldl_max_self ks (Nat.max x a))
    rcases List.mem_cons.mp h with rfl | h
    · exact Nat.le_trans (Nat.le_max_right k x) (le_foldl_max_self ks (Nat.max k x))
    · exact ih (Nat.max k a) (List.mem_cons.mpr (Or.inr h))

/-- `create_deck` never touches the `notes` and `cards` tables. -/
theorem create_deck_tables (db : Collection) (name : String) (t : Nat) :
    (create_deck db name t).1.notes = db.notes ∧ (create_deck db name t).1.cards = db.cards := by
  unfold create_deck
  split
  · exact ⟨rfl, rfl⟩
  · split
    · exact ⟨rfl, rfl⟩
    · split
      · exact ⟨rfl, rfl⟩
      · exact ⟨rfl, rfl⟩

/-- `create_deck` on a singleton `col` table, name present. -/
theorem create_deck_found (db : Collection) (r : ColRow) (name : String) (t : Nat)
    (p : Nat × Deck) (hr : db.colRows = [r]) (hid : r.id = 1)
    (hf : r.decks.find? (fun q => q.2.name == name) = some p) :
    create_deck db name t = (db, .ok p.1) := by
  unfold create_deck
  rw [hr]
  simp [List.find?, hid, hf]

/-- `create_deck` on a singleton `col` table, name absent, nonempty deck
document: the updated state and the maximum-plus-one id, explicitly. -/
theorem create_deck_new (db : Collection) (r : ColRow) (name : String) (t : Nat)
    (k : Nat) (ks : List Nat) (hr : db.colRows = [r]) (hid : r.id = 1)
    (hf : r.decks.find? (fun q => q.2.name == name) = none)
    (hk : r.decks.map Prod.fst = k :: ks) :
    create_deck db name t =
      ({ db with colRows := [{ r with
          decks := r.decks ++ [(ks.foldl Nat.max k + 1,
            { id := ks.foldl Nat.max k + 1, name := name, mod := t })],
          mod := t }] },
        .ok (ks.foldl Nat.max k + 1)) := by
  unfold create_deck
  rw [hr]
  simp [List.find?, hid, hf, hk]


/-- Full characterization of `add_note`: on success the state gains exactly
one note row, one card row and the modified-time update; on failure the
state is exactly what `create_deck` left behind. -/
theorem add_note_eq (db : Collection) (front back dn : String)
    (tags : Option (List String)) (e : Env) :
    (∀ n, (add_note db front back dn tags e).2 = .ok n →
       n = e.tId + e.rand ∧
       ∃ db1 deck_id, create_deck db dn e.tDeck = (db1, .ok deck_id) ∧
         (add_note db front back dn tags e).1 =
           { colRows := db1.colRows.map
               (fun r => if r.id == 1 then { r with mod := e.tNow } else r)
             notes := db1.notes ++ [noteRowOf front back tags n e.tNow]
             cards := db1.cards ++ [cardRowOf (n + 1) n deck_id e.tNow] }) ∧
    (∀ err, (add_note db front back dn tags e).2 = .error err →
       (add_note db front back dn tags e).1 = (create_deck db dn e.tDeck).1) := by
  rcases hc : create_deck db dn e.tDeck with ⟨db1, res⟩
  cases res with
  | error err =>
    have key : add_note db front back dn tags e = (db1, .error err) := by
      simp [add_note, hc]
    constructor
    · intro n hn
      rw [key] at hn
      simp at hn
    · intro err2 _
      rw [key]
  | ok deck_id =>
    by_cases hn1 : db1.notes.any
        (fun nr => nr.id == e.tId + e.rand || nr.guid == guidOf (e.tId + e.rand) front back)
    · have key : add_note db front back dn tags e = (db1, .error .constraintViolation) := by
        simp [add_note, hc, hn1]
      constructor
      · intro n hn
        rw [key] at hn
        simp at hn
      · intro err2 _
        rw [key]
    · by_cases hn2 : db1.cards.any (fun c => c.id == e.tId + e.rand + 1)
      · have key : add_note db front back dn tags e = (db1, .error .constraintViolation) := by
          simp [add_note, hc, hn1, hn2]
        constructor
        · intro n hn
          rw [key] at hn
          simp at hn
        · intro err2 _
          rw [key]
      · have key : add_note db front back dn tags e =
            ({ colRows := db1.colRows.map
                 (fun r => if r.id == 1 then { r with mod := e.tNow } else r)
               notes := db1.notes ++ [noteRowOf front back tags (e.tId + e.rand) e.tNow]
               cards := db1.cards ++
                 [cardRowOf (e.tId + e.rand + 1) (e.tId + e.rand) deck_id e.tNow] },
              .ok (e.tId + e.rand)) := by
          simp [add_note, hc, hn1, hn2]
        constructor
        · intro n hn
          rw [key] at hn
          simp only [Except.ok.injEq] at hn
          subst hn
          exact ⟨rfl, db1, deck_id, rfl, by rw [key]⟩
        · intro err2 herr
          rw [key] at herr
          simp at herr

/-- `decksOf` under a singleton `col` table. -/
theorem decksOf_eq (db : Collection) (r : ColRow) (hr : db.colRows = [r])
    (hid : r.id = 1) : decksOf db = r.decks := by
  simp [decksOf, hr, List.find?, hid]

/-- `create_deck` on a singleton `col` table, name absent, empty deck
document: `max([])` raises. -/
theorem create_deck_empty (db : Collection) (r : ColRow) (name : String) (t : Nat)
    (hr : db.colRows = [r]) (hid : r.id = 1)
    (hf : r.decks.find? (fun q => q.2.name == name) = none)
    (hk : r.decks.map Prod.fst = []) :
    create_deck db name t = (db, .error .emptyDeckDoc) := by
  unfold create_deck
  rw [hr]
  simp [List.find?, hid, hf, hk]

/-- `create_deck` preserves the singleton-`col`-row invariant. -/
theorem oneColRow_create_deck (db : Collection) (name : String) (t : Nat)
    (hdb : oneColRow db = true) : oneColRow (create_deck db name t).1 = true := by
  obtain ⟨r, hr, hid⟩ := (oneColRow_iff db).mp hdb
  rcases hf : r.decks.find? (fun q => q.2.name == name) with _ | p
  · rcases hk : r.decks.map Prod.fst with _ | ⟨k, ks⟩
    · rw [create_deck_empty db r name t hr hid hf hk]
      exact hdb
    · rw [create_deck_new db r name t k ks hr hid hf hk]
      simp [oneColRow, hid]
  · rw [create_deck_found db r name t p hr hid hf]
    exact hdb

/-- `colMod` of a state whose `col` rows got the `UPDATE col SET mod`. -/
theorem colMod_of_map (rows : List ColRow) (r : ColRow) (now : Nat)
    (notes : List NoteRow) (cards : List CardRow) (hr : rows = [r]) (hid : r.id = 1) :
    colMod { colRows := rows.map (fun q => if q.id == 1 then { q with mod := now } else q),
             notes := notes, cards := cards } = now := by
  subst hr
  simp [colMod, List.find?, hid]

/-- `oneColRow` of a state whose `col` rows got the `UPDATE col SET mod`. -/
theorem oneColRow_of_map (rows : List ColRow) (r : ColRow) (now : Nat)
    (notes : List NoteRow) (cards : List CardRow) (hr : rows = [r]) (hid : r.id = 1) :
    oneColRow { colRows := rows.map (fun q => if q.id == 1 then { q with mod := now } else q),
                notes := notes, cards := cards } = true := by
  subst hr
  simp [oneColRow, hid]

/-! ## Claims -/

/-- C1: `add_note` computes the sort field as `front` truncated to 64
characters and the checksum as the first 8 hex digits of the SHA-1 digest
of the UTF-8-encoded sort field parsed as an unsigned integer; the checksum
is therefore a pure function of the 64-character truncation, so fronts with
identical truncations yield identical checksums. -/
theorem claim1_checksum (f1 f2 : String) (h : f1.take 64 = f2.take 64) :
    sfldOf f1 = f1.take 64 ∧
    csumOf f1 = parseHexNat ((bytesToHex (sha1Digest (utf8Bytes (sfldOf f1)))).take 8) ∧
    (∀ back tags nid now, (noteRowOf f1 back tags nid now).sfld = sfldOf f1 ∧
       (noteRowOf f1 back tags nid now).csum = csumOf f1) ∧
    csumOf f1 = csumOf f2 := by
  refine ⟨sfldOf_eq_take f1, ?_, fun _ _ _ _ => by simp only [noteRowOf]; exact ⟨trivial, trivial⟩, ?_⟩
  · unfold csumOf sha1Hexdigest
    exact rfl
  · unfold csumOf
    rw [sfldOf_eq_take f1, sfldOf_eq_take f2, h]

/-- Witness for C1: two distinct 65-character fronts agreeing on the first
64 characters have equal checksums. -/
theorem claim1_checksum_witness :
    (String.mk (List.replicate 65 'a')).take 64 =
      (String.mk (List.replicate 64 'a' ++ ['b'])).take 64 ∧
    csumOf (String.mk (List.replicate 65 'a')) =
      csumOf (String.mk (List.replicate 64 'a' ++ ['b'])) :=
  ⟨by decide, (claim1_checksum _ _ (by decide)).2.2.2⟩

/-- C7: the stored tags string places a single space around every tag —
`" " + " ".join(tags) + " "` — the empty tag list yields exactly two space
characters, and `["algorithm", "complexity"]` yields
`" algorithm complexity "`. -/
theorem claim7_tags (db : Collection) (front back dn : String) (ts : List String)
    (e : Env) (n : Nat) (h : (add_note db front back dn (some ts) e).2 = .ok n) :
    (∃ note, (add_note db front back dn (some ts) e).1.notes = db.notes ++ [note] ∧
       note.tags = " " ++ String.intercalate " " ts ++ " ") ∧
    (noteRowOf front back (some []) n e.tNow).tags = "  " ∧
    (noteRowOf front back (some ["algorithm", "complexity"]) n e.tNow).tags =
      " algorithm complexity " := by
  obtain ⟨hn, db1, did, hcd, hst⟩ := (add_note_eq db front back dn (some ts) e).1 n h
  refine ⟨⟨noteRowOf front back (some ts) n e.tNow, ?_, rfl⟩, ?_, ?_⟩
  · rw [hst]
    have h1 := (create_deck_tables db dn e.tDeck).1
    rw [hcd] at h1
    have h2 : db1.notes = db.notes := h1
    show db1.notes ++ _ = db.notes ++ _
    rw [h2]
  · simp only [noteRowOf]
    decide
  · simp only [noteRowOf]
    decide

/-- Witness for C7 on a fresh store. -/
theorem claim7_tags_witness :
    (∃ note,
      (add_note (freshCollection 5) "Q" "A" "Math" (some ["algorithm", "complexity"])
          ⟨6, 3000, 7, 8⟩).1.notes = (freshCollection 5).notes ++ [note] ∧
      note.tags = " " ++ String.intercalate " " ["algorithm", "complexity"] ++ " ") ∧
    (noteRowOf "Q" "A" (some []) 3007 8).tags = "  " ∧
    (noteRowOf "Q" "A" (some ["algorithm", "complexity"]) 3007 8).tags =
      " algorithm complexity " :=
  claim7_tags (freshCollection 5) "Q" "A" "Math" ["algorithm", "complexity"]
    ⟨6, 3000, 7, 8⟩ 3007 (by decide)

/-- C10: omitting `tags` (Python `None`) behaves identically to passing an
empty tag list — same return value and same stored rows, with the stored
tags string equal to two space characters. -/
theorem claim10_default_tags (db : Collection) (front back dn : String) (e : Env) :
    add_note db front back dn none e = add_note db front back dn (some []) e ∧
    (noteRowOf front back none (e.tId + e.rand) e.tNow).tags = "  " := by
  constructor
  · rfl
  · simp only [noteRowOf]
    decide

/-- C3: a successful `add_note` appends exactly one note row and exactly
one card row; the card's `nid` is the returned note id, its `did` is the id
`create_deck` resolves for the deck name, its own id is `noteId + 1`, and
all its scheduling fields are zero. -/
theorem claim3_note_card (db : Collection) (front back dn : String)
    (tags : Option (List String)) (e : Env) (n : Nat)
    (h : (add_note db front back dn tags e).2 = .ok n) :
    ∃ note card,
      (add_note db front back dn tags e).1.notes = db.notes ++ [note] ∧
      (add_note db front back dn tags e).1.cards = db.cards ++ [card] ∧
      note.id = n ∧ card.nid = n ∧ card.id = n + 1 ∧
      (create_deck db dn e.tDeck).2 = .ok card.did ∧
      card.«type» = 0 ∧ card.queue = 0 ∧ card.due = 0 ∧ card.ivl = 0 ∧
      card.factor = 0 ∧ card.reps = 0 ∧ card.lapses = 0 ∧ card.left = 0 ∧
      card.odue = 0 ∧ card.odid = 0 := by
  obtain ⟨hn, db1, did, hcd, hst⟩ := (add_note_eq db front back dn tags e).1 n h
  have h1 : db1.notes = db.notes := by
    have h0 := (create_deck_tables db dn e.tDeck).1
    rw [hcd] at h0
    exact h0
  have h2 : db1.cards = db.cards := by
    have h0 := (create_deck_tables db dn e.tDeck).2
    rw [hcd] at h0
    exact h0
  refine ⟨noteRowOf front back tags n e.tNow, cardRowOf (n + 1) n did e.tNow,
    ?_, ?_, rfl, rfl, rfl, ?_, rfl, rfl, rfl, rfl, rfl, rfl, rfl, rfl, rfl, rfl⟩
  · rw [hst]
    show db1.notes ++ _ = db.notes ++ _
    rw [h1]
  · rw [hst]
    show db1.cards ++ _ = db.cards ++ _
    rw [h2]
  · rw [hcd]
    rfl

/-- Witness for C3 on a fresh store. -/
theorem claim3_note_card_witness :
    ∃ note card,
      (add_note (freshCollection 5) "Q" "A" "Math" (some ["x"]) ⟨6, 3000, 7, 8⟩).1.notes =
        (freshCollection 5).notes ++ [note] ∧
      (add_note (freshCollection 5) "Q" "A" "Math" (some ["x"]) ⟨6, 3000, 7, 8⟩).1.cards =
        (freshCollection 5).cards ++ [card] ∧
      note.id = 3007 ∧ card.nid = 3007 ∧ card.id = 3007 + 1 ∧
      (create_deck (freshCollection 5) "Math" 6).2 = .ok card.did ∧
      card.«type» = 0 ∧ card.queue = 0 ∧ card.due = 0 ∧ card.ivl = 0 ∧
      card.factor = 0 ∧ card.reps = 0 ∧ card.lapses = 0 ∧ card.left = 0 ∧
      card.odue = 0 ∧ card.odid = 0 :=
  claim3_note_card (freshCollection 5) "Q" "A" "Math" (some ["x"]) ⟨6, 3000, 7, 8⟩ 3007
    (by decide)

/-- C2: resolving the same deck name twice in sequence returns the same id
both times and creates at most one new deck entry; when the name already
exists (exact, case-sensitive match) the existing id is returned and the
state is not written at all. -/
theorem claim2_resolve_idempotent (db : Collection) (name : String) (t1 t2 : Nat)
    (hdb : oneColRow db = true) :
    (∀ db1 id, create_deck db name t1 = (db1, .ok id) →
       create_deck db1 name t2 = (db1, .ok id) ∧
       (decksOf db1).length ≤ (decksOf db).length + 1) ∧
    (∀ p, (decksOf db).find? (fun q => q.2.name == name) = some p →
       create_deck db name t1 = (db, .ok p.1)) := by
  obtain ⟨r, hr, hid⟩ := (oneColRow_iff db).mp hdb
  have hdk := decksOf_eq db r hr hid
  constructor
  · intro db1 id h
    rcases hf : r.decks.find? (fun q => q.2.name == name) with _ | p
    · rcases hk : r.decks.map Prod.fst with _ | ⟨k, ks⟩
      · rw [create_deck_empty db r name t1 hr hid hf hk] at h
        simp at h
      · rw [create_deck_new db r name t1 k ks hr hid hf hk] at h
        have h1 : ({ db with colRows := [{ r with
            decks := r.decks ++ [(ks.foldl Nat.max k + 1,
              { id := ks.foldl Nat.max k + 1, name := name, mod := t1 })],
            mod := t1 }] } : Collection) = db1 := congrArg Prod.fst h
        have h2 : ks.foldl Nat.max k + 1 = id := by
          have := congrArg Prod.snd h
          simpa using this
        subst h1
        subst h2
        constructor
        · refine create_deck_found _ _ name t2
            (ks.foldl Nat.max k + 1,
              { id := ks.foldl Nat.max k + 1, name := name, mod := t1 }) rfl hid ?_
          rw [List.find?_append, hf]
          simp [List.find?]
        · rw [hdk]
          simp [decksOf, List.find?, hid]
    · rw [create_deck_found db r name t1 p hr hid hf] at h
      have h1 : db = db1 := congrArg Prod.fst h
      have h2 : p.1 = id := by
        have := congrArg Prod.snd h
        simpa using this
      subst h1
      subst h2
      exact ⟨create_deck_found db r name t2 p hr hid hf, Nat.le_succ_of_le (Nat.le_refl _)⟩
  · intro p hp
    rw [hdk] at hp
    exact create_deck_found db r name t1 p hr hid hp

/-- Witness for C2: resolving `"Spanish"` twice on a fresh store. -/
theorem claim2_resolve_idempotent_witness :
    create_deck ((create_deck (freshCollection 5) "Spanish" 9).1) "Spanish" 11 =
      ((create_deck (freshCollection 5) "Spanish" 9).1, .ok 2) ∧
    (decksOf (create_deck (freshCollection 5) "Spanish" 9).1).length ≤
      (decksOf (freshCollection 5)).length + 1 :=
  (claim2_resolve_idempotent (freshCollection 5) "Spanish" 9 11 (by decide)).1
    (create_deck (freshCollection 5) "Spanish" 9).1 2 (by decide)

/-- C5: a deck created for an unseen name gets id `max(existing ids) + 1`;
in particular on a fresh store (only `Default` with id 1)
`create_deck "Spanish"` returns 2. -/
theorem claim5_max_id (db : Collection) (name : String) (t : Nat)
    (hdb : oneColRow db = true)
    (hnew : (decksOf db).find? (fun q => q.2.name == name) = none)
    (hne : decksOf db ≠ []) :
    (∃ m, m ∈ (decksOf db).map Prod.fst ∧ (∀ x ∈ (decksOf db).map Prod.fst, x ≤ m) ∧
       (create_deck db name t).2 = .ok (m + 1)) ∧
    (∀ t0 t1, (create_deck (freshCollection t0) "Spanish" t1).2 = .ok 2) := by
  obtain ⟨r, hr, hid⟩ := (oneColRow_iff db).mp hdb
  have hdk := decksOf_eq db r hr hid
  rw [hdk] at hnew hne ⊢
  constructor
  · rcases hk : r.decks.map Prod.fst with _ | ⟨k, ks⟩
    · exact absurd (List.map_eq_nil_iff.mp hk) hne
    · refine ⟨ks.foldl Nat.max k, ?_, ?_, ?_⟩
      · exact foldl_max_mem ks k
      · intro x hx
        exact le_foldl_max ks k x hx
      · rw [create_deck_new db r name t k ks hr hid hnew hk]
  · intro t0 t1
    rfl

/-- Witness for C5 on a fresh store. -/
theorem claim5_max_id_witness :
    ∃ m, m ∈ (decksOf (freshCollection 5)).map Prod.fst ∧
      (∀ x ∈ (decksOf (freshCollection 5)).map Prod.fst, x ≤ m) ∧
      (create_deck (freshCollection 5) "Spanish" 9).2 = .ok (m + 1) :=
  (claim5_max_id (freshCollection 5) "Spanish" 9 (by decide) (by decide) (by decide)).1

/-- C9: every mutating operation keeps exactly one `col` row and stamps its
modified time with the current clock value; resolving an already-existing
deck name is a no-op that leaves the state, hence the modified time,
unchanged. -/
theorem claim9_col_invariant (db : Collection) (name dn front back : String)
    (tags : Option (List String)) (t : Nat) (e : Env)
    (hdb : oneColRow db = true) :
    (∀ db1 id, create_deck db name t = (db1, .ok id) →
       oneColRow db1 = true ∧ (db1 = db ∨ colMod db1 = t)) ∧
    (∀ p, (decksOf db).find? (fun q => q.2.name == name) = some p →
       (create_deck db name t).1 = db) ∧
    (∀ n, (add_note db front back dn tags e).2 = .ok n →
       oneColRow (add_note db front back dn tags e).1 = true ∧
       colMod (add_note db front back dn tags e).1 = e.tNow) := by
  obtain ⟨r, hr, hid⟩ := (oneColRow_iff db).mp hdb
  refine ⟨?_, ?_, ?_⟩
  · intro db1 id h
    rcases hf : r.decks.find? (fun q => q.2.name == name) with _ | p
    · rcases hk : r.decks.map Prod.fst with _ | ⟨k, ks⟩
      · rw [create_deck_empty db r name t hr hid hf hk] at h
        simp at h
      · rw [create_deck_new db r name t k ks hr hid hf hk] at h
        have h1 : ({ db with colRows := [{ r with
            decks := r.decks ++ [(ks.foldl Nat.max k + 1,
              { id := ks.foldl Nat.max k + 1, name := name, mod := t })],
            mod := t }] } : Collection) = db1 := congrArg Prod.fst h
        subst h1
        refine ⟨by simp [oneColRow, hid], Or.inr ?_⟩
        simp [colMod, List.find?, hid]
    · rw [create_deck_found db r name t p hr hid hf] at h
      have h1 : db = db1 := congrArg Prod.fst h
      subst h1
      exact ⟨hdb, Or.inl rfl⟩
  · intro p hp
    rw [decksOf_eq db r hr hid] at hp
    rw [create_deck_found db r name t p hr hid hp]
  · intro n h
    obtain ⟨hn, db1, did, hcd, hst⟩ := (add_note_eq db front back dn tags e).1 n h
    have hdb1 : oneColRow db1 = true := by
      have h0 := oneColRow_create_deck db dn e.tDeck hdb
      rw [hcd] at h0
      exact h0
    obtain ⟨r1, hr1, hid1⟩ := (oneColRow_iff db1).mp hdb1
    rw [hst]
    exact ⟨oneColRow_of_map db1.colRows r1 e.tNow _ _ hr1 hid1,
      colMod_of_map db1.colRows r1 e.tNow _ _ hr1 hid1⟩

/-- Witness for C9: a concrete `add_note` stamps the collection modified
time and keeps the single `col` row. -/
theorem claim9_col_invariant_witness :
    oneColRow (add_note (freshCollection 5) "Q" "A" "Math" (some ["x"]) ⟨6, 3000, 7, 8⟩).1 =
      true ∧
    colMod (add_note (freshCollection 5) "Q" "A" "Math" (some ["x"]) ⟨6, 3000, 7, 8⟩).1 = 8 :=
  (claim9_col_invariant (freshCollection 5) "Spanish" "Math" "Q" "A" (some ["x"]) 9
    ⟨6, 3000, 7, 8⟩ (by decide)).2.2 3007 (by decide)

/-- C6: `get_decks` returns the deck names of the deck document sorted
lexicographically, and on any read or parse failure (modelled by the
`readOk` flag) or missing `col` row it returns `["Default"]`; being a total
function it never raises. -/
theorem claim6_list_decks (db : Collection) (b : Bool) :
    (b = false → get_decks db b = ["Default"]) ∧
    (db.colRows.find? (fun c => c.id == 1) = none → get_decks db b = ["Default"]) ∧
    (∀ r, b = true → db.colRows.find? (fun c => c.id == 1) = some r →
       List.Sorted (· ≤ ·) (get_decks db b) ∧
       (get_decks db b).Perm (r.decks.map (fun p => p.2.name))) := by
  refine ⟨?_, ?_, ?_⟩
  · intro hb
    subst hb
    rfl
  · intro hf
    cases b
    · rfl
    · simp [get_decks, hf]
  · intro r hb hf
    subst hb
    simp only [get_decks, hf, if_true]
    exact ⟨List.sorted_insertionSort _ _, List.perm_insertionSort _ _⟩

/-- Witness for C6 on a fresh store with a successful read. -/
theorem claim6_list_decks_witness :
    List.Sorted (· ≤ ·) (get_decks (freshCollection 5) true) ∧
    (get_decks (freshCollection 5) true).Perm
      (([(1, defaultDeck 5)] : List (Nat × Deck)).map (fun p => p.2.name)) :=
  (claim6_list_decks (freshCollection 5) true).2.2
    { id := 1, crt := 5, mod := 5, scm := 0, ver := 11, dty := 0, usn := 0, ls := 0,
      decks := [(1, defaultDeck 5)] } rfl (by decide)

/-- C8: the note insert, the card insert and the collection modified-time
update commit as one durable unit: on success all three are visible; on
failure none of the three is committed — the state is exactly the
post-deck-resolution state, so only a deck newly created during deck
resolution may remain. -/
theorem claim8_atomic (db : Collection) (front back dn : String)
    (tags : Option (List String)) (e : Env) (hdb : oneColRow db = true) :
    (∀ n, (add_note db front back dn tags e).2 = .ok n →
       (add_note db front back dn tags e).1.notes =
         db.notes ++ [noteRowOf front back tags n e.tNow] ∧
       (∃ did, (add_note db front back dn tags e).1.cards =
         db.cards ++ [cardRowOf (n + 1) n did e.tNow]) ∧
       colMod (add_note db front back dn tags e).1 = e.tNow) ∧
    (∀ err, (add_note db front back dn tags e).2 = .error err →
       (add_note db front back dn tags e).1.notes = db.notes ∧
       (add_note db front back dn tags e).1.cards = db.cards ∧
       (add_note db front back dn tags e).1 = (create_deck db dn e.tDeck).1) := by
  constructor
  · intro n h
    obtain ⟨hn, db1, did, hcd, hst⟩ := (add_note_eq db front back dn tags e).1 n h
    have h1 : db1.notes = db.notes := by
      have h0 := (create_deck_tables db dn e.tDeck).1
      rw [hcd] at h0
      exact h0
    have h2 : db1.cards = db.cards := by
      have h0 := (create_deck_tables db dn e.tDeck).2
      rw [hcd] at h0
      exact h0
    have hdb1 : oneColRow db1 = true := by
      have h0 := oneColRow_create_deck db dn e.tDeck hdb
      rw [hcd] at h0
      exact h0
    obtain ⟨r1, hr1, hid1⟩ := (oneColRow_iff db1).mp hdb1
    refine ⟨?_, ⟨did, ?_⟩, ?_⟩
    · rw [hst]
      show db1.notes ++ _ = db.notes ++ _
      rw [h1]
    · rw [hst]
      show db1.cards ++ _ = db.cards ++ _
      rw [h2]
    · rw [hst]
      exact colMod_of_map db1.colRows r1 e.tNow _ _ hr1 hid1
  · intro err h
    have hst := (add_note_eq db front back dn tags e).2 err h
    refine ⟨?_, ?_, hst⟩
    · rw [hst]
      exact (create_deck_tables db dn e.tDeck).1
    · rw [hst]
      exact (create_deck_tables db dn e.tDeck).2

/-- Witness for C8: a successful concrete `add_note` shows all three
changes applied. -/
theorem claim8_atomic_witness :
    (add_note (freshCollection 5) "Q" "A" "Math" (some ["x"]) ⟨6, 3000, 7, 8⟩).1.notes =
      (freshCollection 5).notes ++ [noteRowOf "Q" "A" (some ["x"]) 3007 8] ∧
    (∃ did, (add_note (freshCollection 5) "Q" "A" "Math" (some ["x"]) ⟨6, 3000, 7, 8⟩).1.cards =
      (freshCollection 5).cards ++ [cardRowOf (3007 + 1) 3007 did 8]) ∧
    colMod (add_note (freshCollection 5) "Q" "A" "Math" (some ["x"]) ⟨6, 3000, 7, 8⟩).1 = 8 :=
  (claim8_atomic (freshCollection 5) "Q" "A" "Math" (some ["x"]) ⟨6, 3000, 7, 8⟩
    (by decide)).1 3007 (by decide)

/-- One step of `add_notes_batch` when `add_note` fails: the error and the
pre-call state propagate, and the remaining records are never examined. -/
theorem add_notes_batch_cons_err (db dbf : Collection) (r : NoteInput) (e : Env)
    (rest : List (NoteInput × Env)) (err : DbError)
    (hA : add_note db r.front r.back (r.deck_name.getD "Default") r.tags e =
      (dbf, .error err)) :
    add_notes_batch db ((r, e) :: rest) = (dbf, .error err) := by
  simp only [add_notes_batch, hA]

/-- One step of `add_notes_batch` when `add_note` succeeds: the batch
continues from the new state and conses the fresh id. -/
theorem add_notes_batch_cons_ok (db dbA : Collection) (r : NoteInput) (e : Env)
    (rest : List (NoteInput × Env)) (nid : Nat)
    (hA : add_note db r.front r.back (r.deck_name.getD "Default") r.tags e =
      (dbA, .ok nid)) :
    add_notes_batch db ((r, e) :: rest) =
      ((add_notes_batch dbA rest).1,
       match (add_notes_batch dbA rest).2 with
       | .ok nids => .ok (nid :: nids)
       | .error err => .error err) := by
  simp only [add_notes_batch, hA]
  rcases hB : add_notes_batch dbA rest with ⟨dbB, resB⟩
  cases resB <;> simp

/-- Appending batches: a batch whose prefix succeeds continues from the
prefix state, prepending the prefix ids. -/
theorem add_notes_batch_append (rs1 : List (NoteInput × Env)) :
    ∀ db db1 ids1 rs2, add_notes_batch db rs1 = (db1, .ok ids1) →
      add_notes_batch db (rs1 ++ rs2) =
        ((add_notes_batch db1 rs2).1,
         match (add_notes_batch db1 rs2).2 with
         | .ok ids2 => .ok (ids1 ++ ids2)
         | .error err => .error err) := by
  induction rs1 with
  | nil =>
    intro db db1 ids1 rs2 h
    simp only [add_notes_batch] at h
    have h1 : db = db1 := congrArg Prod.fst h
    have h2 : ([] : List Nat) = ids1 := by
      have := congrArg Prod.snd h
      simpa using this
    subst h1
    subst h2
    rw [List.nil_append]
    rcases hB : add_notes_batch db rs2 with ⟨db2, res⟩
    cases res <;> simp
  | cons p rs1 ih =>
    intro db db1 ids1 rs2 h
    rcases p with ⟨r, e⟩
    rcases hA : add_note db r.front r.back (r.deck_name.getD "Default") r.tags e
      with ⟨dbA, resA⟩
    cases resA with
    | error err =>
      rw [add_notes_batch_cons_err db dbA r e rs1 err hA] at h
      have := congrArg Prod.snd h
      simp at this
    | ok nid =>
      rw [add_notes_batch_cons_ok db dbA r e rs1 nid hA] at h
      rw [List.cons_append, add_notes_batch_cons_ok db dbA r e (rs1 ++ rs2) nid hA]
      rcases hB : add_notes_batch dbA rs1 with ⟨dbB, resB⟩
      rw [hB] at h
      cases resB with
      | error err =>
        have := congrArg Prod.snd h
        simp at this
      | ok nids =>
        have hdb : dbB = db1 := by
          have := congrArg Prod.fst h
          simpa using this
        have hids : nid :: nids = ids1 := by
          have := congrArg Prod.snd h
          simpa using this
        subst hdb
        subst hids
        rw [ih dbA dbB nids rs2 hB]
        rcases hC : add_notes_batch dbB rs2 with ⟨dbC, resC⟩
        cases resC <;> simp

/-- C4: `add_notes_batch` invokes `add_note` once per record in input order
and returns the note ids in that order; it is not atomic across the batch:
when a record fails, the notes of the earlier records stay committed, that
record's error propagates, and no later record is attempted (the result
does not depend on the remaining records). -/
theorem claim4_batch_semantics (db : Collection) (rs1 rs2 rest : List (NoteInput × Env))
    (r : NoteInput) (e : Env) :
    (add_notes_batch db [] = (db, .ok [])) ∧
    (∀ db1 ids1, add_notes_batch db rs1 = (db1, .ok ids1) →
       add_notes_batch db (rs1 ++ rs2) =
         ((add_notes_batch db1 rs2).1,
          match (add_notes_batch db1 rs2).2 with
          | .ok ids2 => .ok (ids1 ++ ids2)
          | .error err => .error err)) ∧
    (∀ dbA nid, add_note db r.front r.back (r.deck_name.getD "Default") r.tags e =
        (dbA, .ok nid) →
       add_notes_batch db ((r, e) :: rest) =
         ((add_notes_batch dbA rest).1,
          match (add_notes_batch dbA rest).2 with
          | .ok nids => .ok (nid :: nids)
          | .error err => .error err)) ∧
    (∀ dbf err, add_note db r.front r.back (r.deck_name.getD "Default") r.tags e =
        (dbf, .error err) →
       add_notes_batch db ((r, e) :: rest) = (dbf, .error err) ∧
       dbf.notes = db.notes ∧ dbf.cards = db.cards) := by
  refine ⟨rfl, fun db1 ids1 h => add_notes_batch_append rs1 db db1 ids1 rs2 h,
    fun dbA nid h => add_notes_batch_cons_ok db dbA r e rest nid h,
    fun dbf err h => ⟨add_notes_batch_cons_err db dbf r e rest err h, ?_, ?_⟩⟩
  all_goals
    have h2 : (add_note db r.front r.back (r.deck_name.getD "Default") r.tags e).2 =
        .error err := by rw [h]
  all_goals
    have hst := (add_note_eq db r.front r.back (r.deck_name.getD "Default") r.tags e).2 err h2
  all_goals
    have h1 : (add_note db r.front r.back (r.deck_name.getD "Default") r.tags e).1 = dbf := by
      rw [h]
  all_goals rw [h1] at hst
  all_goals rw [hst]
  · exact (create_deck_tables db (r.deck_name.getD "Default") e.tDeck).1
  · exact (create_deck_tables db (r.deck_name.getD "Default") e.tDeck).2

/-- State after the first record of the C4 witness batch: one note with id
3007 committed. -/
def exBatchDb : Collection :=
  (add_note (freshCollection 5) "Q" "A" "Math" (some []) ⟨6, 3000, 7, 8⟩).1

/-- Witness for C4: a record drawing the same clock value and random offset
collides on the note id, so the batch fails, keeps the prior state, and
never attempts the trailing record. -/
theorem claim4_batch_semantics_witness :
    add_notes_batch exBatchDb
        ((⟨"R", "S", some "Math", none⟩, ⟨6, 3000, 7, 8⟩) ::
          [(⟨"T", "U", none, none⟩, ⟨10, 4000, 1, 12⟩)]) =
      (exBatchDb, .error .constraintViolation) ∧
    exBatchDb.notes = exBatchDb.notes ∧ exBatchDb.cards = exBatchDb.cards :=
  (claim4_batch_semantics exBatchDb [] [] [(⟨"T", "U", none, none⟩, ⟨10, 4000, 1, 12⟩)]
      ⟨"R", "S", some "Math", none⟩ ⟨6, 3000, 7, 8⟩).2.2.2 exBatchDb .constraintViolation
    (by decide)
